import Mathlib

/-!
# Verification of the RBAC / account-lifecycle core

A shallow embedding, in Lean 4, of the authorization core of the repository:
the permission service (`src/src/services/permission-sql.service.ts`), the
authentication/authorization middleware (`src/src/middleware/auth-sql.ts`,
`account-status` middleware), the role and user data access layer
(`src/src/dataaccess/RoleDao.ts`, `UserDao.ts` over the schema of
`scripts/create-auth-schema.ts`), and the auth / invitation / profile / role
HTTP routes.

The relational store is modelled as an explicit `DB` state (lists of rows);
SQL queries of the DAOs become pure functions over that state; the bcrypt
primitives and the JWT signer are abstracted as function parameters.
-/

namespace PostgresDB

/-- Account status enum (`AccountStatus` in `src/src/entities/User.ts`).
The older two-valued `UserStatus` enum of the same file uses the
`inactive`/`active` subset; all guards in the source compare against the
`active` value only. -/
inductive AccountStatus where
  | pending
  | active
  | inactive
  | suspended
  deriving DecidableEq, Repr

/-- The `role` object of a `UserProfile`
(`src/src/middleware/auth-sql.ts`, interface `UserProfile`).
`permissions` is `Option`al because the service guards against a missing
permissions array (`!user.role.permissions`). -/
structure RoleInfo where
  id : String
  name : String
  permissions : Option (List String)
  deriving DecidableEq, Repr

/-- The request-scoped principal (`UserProfile` in
`src/src/middleware/auth-sql.ts`), restricted to the fields the
authorization logic reads. -/
structure UserProfile where
  id : String
  email : String
  accountStatus : AccountStatus
  role : Option RoleInfo
  deriving DecidableEq, Repr

namespace PermissionService

/-- `PermissionService.hasPermission`
(`src/src/services/permission-sql.service.ts`): false when the user has no
role or no permissions array, otherwise membership in
`user.role.permissions`. -/
def hasPermission (user : UserProfile) (permission : String) : Bool :=
  match user.role with
  | none => false
  | some r =>
    match r.permissions with
    | none => false
    | some ps => ps.contains permission

/-- `PermissionService.hasAnyPermission`: `permissions.some(...)`. -/
def hasAnyPermission (user : UserProfile) (permissions : List String) : Bool :=
  permissions.any (fun permission => hasPermission user permission)

/-- `PermissionService.hasAllPermissions`: `permissions.every(...)`. -/
def hasAllPermissions (user : UserProfile) (permissions : List String) : Bool :=
  permissions.all (fun permission => hasPermission user permission)

/-- `PermissionService.isAdmin`: role name equals `super_admin` or `admin`. -/
def isAdmin (user : UserProfile) : Bool :=
  match user.role with
  | none => false
  | some r => r.name == "super_admin" || r.name == "admin"

/-- `PermissionService.isSuperAdmin`: role name equals `super_admin`. -/
def isSuperAdmin (user : UserProfile) : Bool :=
  match user.role with
  | none => false
  | some r => r.name == "super_admin"

/-- `PermissionService.getUserPermissions`: the user's permission array, or
`[]` when the role or the array is missing. -/
def getUserPermissions (user : UserProfile) : List String :=
  match user.role with
  | none => []
  | some r => r.permissions.getD []

end PermissionService

/-- Outcome of a middleware pre-handler: pass through, or reply with an
HTTP status code and error message. -/
inductive Decision where
  | allow
  | reject (code : Nat) (message : String)
  deriving DecidableEq, Repr

/-- `authenticate` (`src/src/middleware/auth-sql.ts`): 401 when passport
resolves no user, 403 when the resolved user's account status is not
`active`, otherwise the profile is attached to the request. -/
def authenticate (user : Option UserProfile) : Decision :=
  match user with
  | none => .reject 401 "Unauthorized Access"
  | some u =>
    if u.accountStatus != AccountStatus.active then .reject 403 "Account is inactive"
    else .allow

/-- `requirePermission(permission)` middleware of
`src/src/middleware/auth-sql.ts`. -/
def requirePermission (permission : String) (userProfile : Option UserProfile) : Decision :=
  match userProfile with
  | none => .reject 401 "Unauthorized Access"
  | some u =>
    if !(PermissionService.hasPermission u permission) then
      .reject 403 "Insufficient permissions"
    else .allow

/-- `requireAnyPermission(permissions)` middleware of
`src/src/middleware/auth-sql.ts`. -/
def requireAnyPermission (permissions : List String) (userProfile : Option UserProfile) :
    Decision :=
  match userProfile with
  | none => .reject 401 "Unauthorized Access"
  | some u =>
    if !(PermissionService.hasAnyPermission u permissions) then
      .reject 403 "Insufficient permissions"
    else .allow

/-- `requireAdmin` middleware of `src/src/middleware/auth-sql.ts`. -/
def requireAdmin (userProfile : Option UserProfile) : Decision :=
  match userProfile with
  | none => .reject 401 "Unauthorized Access"
  | some u =>
    if !(PermissionService.isAdmin u) then .reject 403 "Admin access required"
    else .allow

/-- `requireSuperAdmin` middleware of `src/src/middleware/auth-sql.ts`. -/
def requireSuperAdmin (userProfile : Option UserProfile) : Decision :=
  match userProfile with
  | none => .reject 401 "Unauthorized Access"
  | some u =>
    if !(PermissionService.isSuperAdmin u) then .reject 403 "Super admin access required"
    else .allow

/-- The allow-list of the account-status middleware: routes an inactive
account may still reach. -/
def allowedInactiveRoutes : List String :=
  ["/profile/password", "/auth/logout", "/activate-account"]

/-- JavaScript `url.includes(route)` : substring containment. -/
def urlIncludes (url route : String) : Bool :=
  decide (route.toList <:+: url.toList)

/-- `checkAccountActive` (account-status middleware): skips when no
principal is attached, allows when the request URL contains an allow-listed
route, otherwise rejects a non-`active` account with 403. -/
def checkAccountActive (userProfile : Option UserProfile) (url : String) : Decision :=
  match userProfile with
  | none => .allow
  | some u =>
    if allowedInactiveRoutes.any (fun route => urlIncludes url route) then .allow
    else if u.accountStatus != AccountStatus.active then
      .reject 403 "Account inactive. Please change your password to activate your account."
    else .allow

/-- `requireActiveAccount` (account-status middleware): 401 without a
principal, 403 when the account status is not `active`. -/
def requireActiveAccount (userProfile : Option UserProfile) : Decision :=
  match userProfile with
  | none => .reject 401 "Authentication required"
  | some u =>
    if u.accountStatus != AccountStatus.active then
      .reject 403 "Account inactive. Please change your password to activate your account."
    else .allow

/-! ## A computable string order for `ORDER BY p.name`

SQL's `ORDER BY p.name` is modelled as codepoint-lexicographic order on
the name strings.  The order is given by an executable comparator so that
concrete query results evaluate inside proofs. -/

/-- Lexicographic less-or-equal on character lists, by codepoint. -/
def lexLe : List Char → List Char → Bool
  | [], _ => true
  | _ :: _, [] => false
  | a :: as, b :: bs =>
    if a.toNat < b.toNat then true
    else if b.toNat < a.toNat then false
    else lexLe as bs

/-- Lexicographic less-or-equal on strings. -/
def strLe (a b : String) : Bool := lexLe a.data b.data

/-- The string order used by the model of `ORDER BY`. -/
def strLeRel (a b : String) : Prop := strLe a b = true

instance : DecidableRel strLeRel := fun a b => inferInstanceAs (Decidable (strLe a b = true))

/-- `ORDER BY` on a list of names: insertion sort under `strLeRel`. -/
def sortNames (l : List String) : List String :=
  List.insertionSort strLeRel l


/-! ## Relational store (schema of `scripts/create-auth-schema.ts`) -/

/-- A row of the `permissions` table (`id` UUID primary key, `name` UNIQUE). -/
structure PermissionRow where
  id : String
  name : String
  deriving DecidableEq, Repr

/-- A row of the `roles` table (`id` UUID primary key, `name` UNIQUE). -/
structure RoleRow where
  id : String
  name : String
  deriving DecidableEq, Repr

/-- A row of the `users` table, restricted to the columns the
authentication and lifecycle logic reads.  Timestamps are modelled as
integers on one authoritative clock. -/
structure UserRow where
  id : String
  email : String
  passwordHash : String
  accountStatus : AccountStatus
  roleId : Option String
  invitationToken : Option String
  invitationExpires : Option Int
  resetPasswordToken : Option String
  resetPasswordExpires : Option Int
  deriving DecidableEq, Repr

/-- The relational store: `users`, `roles`, `permissions`, and the
`role_permissions` junction table as `(roleId, permissionId)` pairs
(`UNIQUE("roleId","permissionId")` in the schema). -/
structure DB where
  users : List UserRow
  roles : List RoleRow
  permissions : List PermissionRow
  rolePermissions : List (String × String)
  deriving DecidableEq, Repr

/-- Names produced by the join
`role_permissions rp ON r.id = rp."roleId"` /
`permissions p ON rp."permissionId" = p.id` for a given role id:
one `p.name` per junction row whose permission id resolves
(`FILTER (WHERE p.name IS NOT NULL)` drops unresolved rows). -/
def rolePermissionNames (db : DB) (roleId : String) : List String :=
  (db.rolePermissions.filter (fun rp => rp.1 == roleId)).filterMap
    (fun rp => (db.permissions.find? (fun p => p.id == rp.2)).map PermissionRow.name)

/-- The result shape of `RoleDao.getRoleById` (`RoleWithPermissions`); the
SQL `NULL` aggregate of a role without assignments is modelled as `[]`. -/
structure RoleWithPermissions where
  id : String
  name : String
  permissions : List String
  deriving DecidableEq, Repr

/-- `RoleDao.getRoleById`: the role row found by id, with
`array_agg(p.name ORDER BY p.name)` over its join rows. -/
def getRoleById (db : DB) (roleId : String) : Option RoleWithPermissions :=
  (db.roles.find? (fun r => r.id == roleId)).map
    (fun r =>
      { id := r.id, name := r.name,
        permissions := sortNames (rolePermissionNames db r.id) })

/-- The spec's `resolvePermissions(roleId)`, realized in the source by
`RoleDao.getRoleById(roleId).permissions`: the flattened permission-name
set of a role, empty when the role is absent or has no assignments. -/
def resolvePermissions (db : DB) (roleId : String) : List String :=
  match getRoleById db roleId with
  | none => []
  | some r => r.permissions

/-- `UserDao.getUserByEmail` (`WHERE u.email = $1`). -/
def getUserByEmail (db : DB) (email : String) : Option UserRow :=
  db.users.find? (fun u => u.email == email)

/-- `UserDao.getUserByInvitationToken`
(`WHERE "invitationToken" = $1`; a cleared `NULL` token matches nothing). -/
def getUserByInvitationToken (db : DB) (token : String) : Option UserRow :=
  db.users.find? (fun u => u.invitationToken == some token)

/-- `UserDao.getUserByPasswordResetToken`
(`WHERE "resetPasswordToken" = $1 AND "resetPasswordExpires" > NOW()`;
a `NULL` expiry fails the SQL comparison, so the row is excluded). -/
def getUserByPasswordResetToken (db : DB) (token : String) (now : Int) : Option UserRow :=
  db.users.find? (fun u =>
    u.resetPasswordToken == some token &&
      (match u.resetPasswordExpires with
       | some e => decide (e > now)
       | none => false))

/-- `UserDao.updateUser` restricted to the rows it touches: rewrite the
user row(s) with the given id through `f`. -/
def updateUserRow (db : DB) (uid : String) (f : UserRow → UserRow) : DB :=
  { db with users := db.users.map (fun u => if u.id == uid then f u else u) }

/-! ## Principal resolution (UserDao join + route-level `role:` object) -/

/-- The `role` object the routes attach to the principal from a
`UserWithRole` row:
`user.roleId ? { id, name: roleName, permissions: rolePermissions | [] } : null`.
`roleName` and `rolePermissions` come from the `LEFT JOIN` chain
`users -> roles -> role_permissions -> permissions`, so both are empty when
the role row itself is absent. -/
def userRoleJoinNames (db : DB) (rid : String) : List String :=
  match db.roles.find? (fun r => r.id == rid) with
  | none => []
  | some r => rolePermissionNames db r.id

/-- The principal's `role` object assembled by the routes from the
`UserWithRole` row, with `userRoleJoinNames` as its permission array. -/
def principalRole (db : DB) (u : UserRow) : Option RoleInfo :=
  u.roleId.map (fun rid =>
    { id := rid,
      name := ((db.roles.find? (fun r => r.id == rid)).map RoleRow.name).getD "",
      permissions := some (userRoleJoinNames db rid) })

/-- The principal resolved for a user row, as built by the auth/profile
routes. -/
def principalOf (db : DB) (u : UserRow) : UserProfile :=
  { id := u.id, email := u.email, accountStatus := u.accountStatus,
    role := principalRole db u }

/-! ## Role mutation (`RoleDao.setRolePermissions`, `deleteRole` and the
role routes) -/

/-- The `DELETE FROM role_permissions WHERE "roleId" = $1` statement. -/
def clearRolePermissions (db : DB) (roleId : String) : DB :=
  { db with rolePermissions := db.rolePermissions.filter (fun rp => rp.1 != roleId) }

/-- One `INSERT INTO role_permissions ("roleId","permissionId") VALUES ($1,$2)`:
fails (raises) on the `UNIQUE("roleId","permissionId")` constraint or on a
violated foreign key to `roles` / `permissions`. -/
def insertRolePermission (db : DB) (roleId permissionId : String) : Option DB :=
  if db.rolePermissions.contains (roleId, permissionId) then none
  else if (db.roles.find? (fun r => r.id == roleId)).isNone then none
  else if (db.permissions.find? (fun p => p.id == permissionId)).isNone then none
  else some { db with rolePermissions := db.rolePermissions ++ [(roleId, permissionId)] }

/-- The insert loop of `RoleDao.setRolePermissions`; the first failing
insert aborts the transaction. -/
def insertAllRolePermissions (db : DB) (roleId : String) : List String → Option DB
  | [] => some db
  | pid :: rest =>
    match insertRolePermission db roleId pid with
    | none => none
    | some db₁ => insertAllRolePermissions db₁ roleId rest

/-- `RoleDao.setRolePermissions(roleId, permissionIds)`: inside one
transaction, delete the role's junction rows and insert each given pair.
`none` means the transaction raised and was rolled back: the caller
observes an error and the store keeps its pre-call state. -/
def setRolePermissions (db : DB) (roleId : String) (permissionIds : List String) :
    Option DB :=
  insertAllRolePermissions (clearRolePermissions db roleId) roleId permissionIds

/-- `RoleDao.deleteRole` plus the schema's referential actions:
`role_permissions` rows cascade, `users."roleId"` is set to `NULL`. -/
def deleteRole (db : DB) (roleId : String) : DB :=
  { db with
    roles := db.roles.filter (fun r => r.id != roleId),
    rolePermissions := db.rolePermissions.filter (fun rp => rp.1 != roleId),
    users := db.users.map (fun u =>
      if u.roleId == some roleId then { u with roleId := none } else u) }

/-- The fixed protected-role list of the `DELETE /roles/:id` handler. -/
def systemRoles : List String :=
  ["super_admin", "admin", "geologist", "driller", "junior_driller"]

/-- Outcomes of the `DELETE /roles/:id` endpoint. -/
inductive DeleteRoleResult where
  | unauthorized
  | accountInactive
  | insufficientPermissions
  | notFound
  | protectedRole
  | deleted
  deriving DecidableEq, Repr

/-- The `DELETE /roles/:id` endpoint: pre-handlers
`[authenticate, requireActiveAccount, requirePermission(MANAGE_ROLES)]`
followed by the handler (404 on a missing role, 400 `Cannot delete system
roles` on a protected name, otherwise the delete).  `manageRoles` is the
string value of the `MANAGE_ROLES` permission constant the route requires;
the handler's behaviour does not depend on that value. -/
def deleteRoleEndpoint (manageRoles : String) (db : DB) (caller : Option UserProfile)
    (roleId : String) : DeleteRoleResult × DB :=
  match caller with
  | none => (.unauthorized, db)
  | some prof =>
    if prof.accountStatus != AccountStatus.active then (.accountInactive, db)
    else if !(PermissionService.hasPermission prof manageRoles) then
      (.insufficientPermissions, db)
    else
      match getRoleById db roleId with
      | none => (.notFound, db)
      | some existingRole =>
        if systemRoles.contains existingRole.name then (.protectedRole, db)
        else if (db.roles.find? (fun r => r.id == roleId)).isSome then
          (.deleted, deleteRole db roleId)
        else (.notFound, db)

/-! ## Login (`/login` of the auth routes) -/

/-- Outcomes of the login endpoint. -/
inductive LoginResult where
  | missingFields
  | invalidCredentials
  | accountNotActive
  | success
  deriving DecidableEq, Repr

/-- The observable HTTP reply of the login endpoint per outcome: status
code and (fixed) message.  The non-active reply is the constant
`'Account is inactive'`; it does not embed the account's status value. -/
def loginResponse : LoginResult → Nat × String
  | .missingFields => (400, "Email and password are required")
  | .invalidCredentials => (401, "Invalid credentials")
  | .accountNotActive => (403, "Account is inactive")
  | .success => (200, "Login successful")

/-- The `/login` handler (identical decision structure in every variant of
the auth routes): look the user up by email, compare the password with
`bcrypt.compare` (abstracted as `verify`), then gate on the account
status.  `lastLogin` update and token issuance are omitted: they do not
affect the decision. -/
def login (verify : String → String → Bool) (db : DB) (email password : String) :
    LoginResult :=
  if email == "" || password == "" then .missingFields
  else
    match getUserByEmail db email with
    | none => .invalidCredentials
    | some user =>
      if !(verify password user.passwordHash) then .invalidCredentials
      else if user.accountStatus != AccountStatus.active then .accountNotActive
      else .success

/-! ## Activation (`POST /api/invitations/activate`) -/

/-- Outcomes of the activation endpoint. -/
inductive ActivateResult where
  | missingFields
  | weakPassword
  | invalidToken
  | expiredToken
  | success
  deriving DecidableEq, Repr

/-- The `/activate` handler of `src/src/routes/invitations.ts`:
field presence, password length, lookup by invitation token, expiry check
(`new Date() > user.invitationExpires`, skipped on a `NULL` expiry), then
the update that activates the account, replaces the hash and clears the
token and expiry.  `hash` abstracts `bcrypt.hash`. -/
def activate (hash : String → String) (db : DB) (token newPassword : String) (now : Int) :
    ActivateResult × DB :=
  if token == "" || newPassword == "" then (.missingFields, db)
  else if newPassword.length < 8 then (.weakPassword, db)
  else
    match getUserByInvitationToken db token with
    | none => (.invalidToken, db)
    | some user =>
      if (match user.invitationExpires with
          | some e => decide (now > e)
          | none => false) then (.expiredToken, db)
      else
        (.success,
          updateUserRow db user.id (fun u =>
            { u with
              passwordHash := hash newPassword,
              accountStatus := AccountStatus.active,
              invitationToken := none,
              invitationExpires := none }))

/-! ## Password-reset request (`POST /password-reset`, two variants of the
auth routes) -/

/-- The observable reply of the password-reset endpoint: status code and
the fields the handler serializes (`message`, `error`, `resetToken`; an
absent field is `none`). -/
structure ResetResponse where
  code : Nat
  message : Option String
  error : Option String
  resetToken : Option String
  deriving DecidableEq, Repr

/-- The generic acknowledgment both branches send. -/
def resetAckMessage : String := "If the email exists, a reset link has been sent"

/-- The `/password-reset` handler of the `src/unnamed/part_008` auth
routes: on a known email it signs a reset token (`sign` abstracts
`jwt.sign({userId})`), stores it with a one-hour expiry, and replies with
the same generic acknowledgment as the unknown-email branch. -/
def passwordResetStoring (sign : String → String) (db : DB) (email : String) (now : Int) :
    ResetResponse × DB :=
  if email == "" then
    ({ code := 400, message := none, error := some "Email is required", resetToken := none },
     db)
  else
    match getUserByEmail db email with
    | none =>
      ({ code := 200, message := some resetAckMessage, error := none, resetToken := none },
       db)
    | some user =>
      ({ code := 200, message := some resetAckMessage, error := none, resetToken := none },
       updateUserRow db user.id (fun u =>
         { u with
           resetPasswordToken := some (sign user.id),
           resetPasswordExpires := some (now + 3600000) }))

/-- The `/password-reset` handler of the `src/unnamed/part_009` auth
routes: it stores nothing, and on a known email it additionally returns
the freshly signed reset token in the reply (a field its own comment marks
`Remove this in production - only for development`). -/
def passwordResetDev (sign : String → String) (db : DB) (email : String) :
    ResetResponse × DB :=
  if email == "" then
    ({ code := 400, message := none, error := some "Email is required", resetToken := none },
     db)
  else
    match getUserByEmail db email with
    | none =>
      ({ code := 200, message := some resetAckMessage, error := none, resetToken := none },
       db)
    | some user =>
      ({ code := 200, message := some resetAckMessage, error := none,
         resetToken := some (sign user.id) },
       db)

/-- The pre-handler chain of `PUT /profile/password`
(`src/src/routes/profile.ts`): just `authenticate`; the account-status
allow-list middleware is not part of it. -/
def profilePasswordPreHandler (user : Option UserProfile) : Decision :=
  authenticate user

/-- Replace the permission array inside a principal's role, leaving
everything else unchanged (used to state that the admin shortcuts ignore
the permission set). -/
def withPermissions (user : UserProfile) (ps : Option (List String)) : UserProfile :=
  { user with role := user.role.map (fun r => { r with permissions := ps }) }

/-! ## Concrete fixtures for witnesses and counterexamples -/

/-- A concrete model of `bcrypt.hash(pw, 12)`. -/
def mkHash (pw : String) : String := "h$" ++ pw

/-- A concrete model of `bcrypt.compare(pw, storedHash)` matching `mkHash`. -/
def mkVerify (pw storedHash : String) : Bool := storedHash == "h$" ++ pw

/-- A concrete model of `jwt.sign({ userId })`. -/
def mkSign (userId : String) : String := "jwt$" ++ userId

/-- A user row with no role and no pending tokens. -/
def mkUser (id email pwHash : String) (st : AccountStatus) : UserRow :=
  { id := id, email := email, passwordHash := pwHash, accountStatus := st,
    roleId := none, invitationToken := none, invitationExpires := none,
    resetPasswordToken := none, resetPasswordExpires := none }

/-- Store with a suspended and a pending user, both with known passwords. -/
def dbStatusUsers : DB :=
  { users := [mkUser "u-s" "s@x.com" (mkHash "pw1") .suspended,
              mkUser "u-p" "p@x.com" (mkHash "pw2") .pending],
    roles := [], permissions := [], rolePermissions := [] }

/-- Store for the principal-resolution witness: one `editor` role holding
`drilling.read`, one user in that role and one user without a role. -/
def dbPrincipal : DB :=
  { users := [{ mkUser "u-e" "e@x.com" (mkHash "pw") .active with roleId := some "r-e" },
              mkUser "u-n" "n@x.com" (mkHash "pw") .active],
    roles := [{ id := "r-e", name := "editor" }],
    permissions := [{ id := "p-d", name := "drilling.read" }],
    rolePermissions := [("r-e", "p-d")] }

/-- Store with one invited (inactive) user holding an unexpired
invitation token. -/
def dbInvited : DB :=
  { users := [{ mkUser "u-i" "i@x.com" (mkHash "old") .inactive with
                invitationToken := some "tok-1", invitationExpires := some 100 }],
    roles := [], permissions := [], rolePermissions := [] }

/-- Store for the expiry-boundary claim: an invited user and a
reset-requesting user, both of whose tokens expire at instant `100`. -/
def dbBoundary : DB :=
  { users := [{ mkUser "u-i" "i@x.com" (mkHash "old") .inactive with
                invitationToken := some "itok", invitationExpires := some 100 },
              { mkUser "u-r" "r@x.com" (mkHash "pw") .active with
                resetPasswordToken := some "rtok", resetPasswordExpires := some 100 }],
    roles := [], permissions := [], rolePermissions := [] }

/-- Store for the permission-replacement claims: one custom role holding
`perm.one`, with `perm.two` also in the catalog. -/
def dbRoleCx : DB :=
  { users := [],
    roles := [{ id := "r1", name := "custom" }],
    permissions := [{ id := "p1", name := "perm.one" }, { id := "p2", name := "perm.two" }],
    rolePermissions := [("r1", "p1")] }

/-- Store with a system role and a custom role. -/
def dbRolesW : DB :=
  { users := [],
    roles := [{ id := "r-sa", name := "super_admin" }, { id := "r-c", name := "custom" }],
    permissions := [], rolePermissions := [] }

/-- A super-admin principal holding the role-management permission. -/
def superAdminCaller : UserProfile :=
  { id := "u-a", email := "a@x.com", accountStatus := .active,
    role := some { id := "r-sa", name := "super_admin",
                   permissions := some ["role.manage"] } }

/-- A pending principal (invited account, valid session token). -/
def pendingProfile : UserProfile :=
  { id := "u-p", email := "pend@x.com", accountStatus := .pending, role := none }

/-- A principal whose role is named `admin` but whose permission set is
empty. -/
def adminNoPerms : UserProfile :=
  { id := "u1", email := "a1@x.com", accountStatus := .active,
    role := some { id := "r1", name := "admin", permissions := some [] } }

/-- A principal whose role is named `super_admin` but whose permission set
is empty. -/
def superNoPerms : UserProfile :=
  { id := "u2", email := "a2@x.com", accountStatus := .active,
    role := some { id := "r2", name := "super_admin", permissions := some [] } }

/-- A principal whose role is named `editor` but whose permission set
contains a system-management grant. -/
def editorWithGrant : UserProfile :=
  { id := "u3", email := "a3@x.com", accountStatus := .active,
    role := some { id := "r3", name := "editor",
                   permissions := some ["system.manage_users"] } }

/-- A principal with no role at all. -/
def uNoRole : UserProfile :=
  { id := "u0", email := "e0@x.com", accountStatus := .active, role := none }

/-- Store with one known user for the password-reset request claims. -/
def dbResetReq : DB :=
  { users := [mkUser "u-e" "known@x.com" (mkHash "pw") .active],
    roles := [], permissions := [], rolePermissions := [] }

/-! ## Properties of the `ORDER BY` model -/

theorem lexLe_total : ∀ x y : List Char, lexLe x y = true ∨ lexLe y x = true
  | [], _ => Or.inl rfl
  | _ :: _, [] => Or.inr rfl
  | a :: as, b :: bs => by
    rcases Nat.lt_trichotomy a.toNat b.toNat with h | h | h
    · exact Or.inl (by simp [lexLe, h])
    · rcases lexLe_total as bs with ih | ih
      · exact Or.inl (by simp [lexLe, h, ih])
      · exact Or.inr (by simp [lexLe, h.symm, ih])
    · exact Or.inr (by simp [lexLe, h])

theorem lexLe_trans : ∀ x y z : List Char,
    lexLe x y = true → lexLe y z = true → lexLe x z = true
  | [], _, _ => by intro _ _; rfl
  | _ :: _, [], _ => by intro h _; simp [lexLe] at h
  | _ :: _, _ :: _, [] => by intro _ h; simp [lexLe] at h
  | a :: as, b :: bs, c :: cs => by
    intro h1 h2
    simp only [lexLe] at h1 h2 ⊢
    rcases Nat.lt_trichotomy a.toNat b.toNat with hab | hab | hab
    · rcases Nat.lt_trichotomy b.toNat c.toNat with hbc | hbc | hbc
      · simp [show a.toNat < c.toNat by omega]
      · simp [show a.toNat < c.toNat by omega]
      · simp [show ¬ b.toNat < c.toNat by omega, hbc] at h2
    · have h1' : lexLe as bs = true := by
        simpa [show ¬ a.toNat < b.toNat by omega, show ¬ b.toNat < a.toNat by omega] using h1
      rcases Nat.lt_trichotomy b.toNat c.toNat with hbc | hbc | hbc
      · simp [show a.toNat < c.toNat by omega]
      · have h2' : lexLe bs cs = true := by
          simpa [show ¬ b.toNat < c.toNat by omega, show ¬ c.toNat < b.toNat by omega] using h2
        simp [show ¬ a.toNat < c.toNat by omega, show ¬ c.toNat < a.toNat by omega]
        exact lexLe_trans as bs cs h1' h2'
      · simp [show ¬ b.toNat < c.toNat by omega, hbc] at h2
    · simp [show ¬ a.toNat < b.toNat by omega, hab] at h1

theorem lexLe_antisymm : ∀ x y : List Char,
    lexLe x y = true → lexLe y x = true → x = y
  | [], [] => by intro _ _; rfl
  | [], _ :: _ => by intro _ h; simp [lexLe] at h
  | _ :: _, [] => by intro h _; simp [lexLe] at h
  | a :: as, b :: bs => by
    intro h1 h2
    simp only [lexLe] at h1 h2
    rcases Nat.lt_trichotomy a.toNat b.toNat with hab | hab | hab
    · simp [show ¬ b.toNat < a.toNat by omega, hab] at h2
    · have h1' : lexLe as bs = true := by
        simpa [show ¬ a.toNat < b.toNat by omega, show ¬ b.toNat < a.toNat by omega] using h1
      have h2' : lexLe bs as = true := by
        simpa [show ¬ a.toNat < b.toNat by omega, show ¬ b.toNat < a.toNat by omega] using h2
      have heq : a = b := Char.ext (UInt32.ext (show a.val.toNat = b.val.toNat from hab))
      rw [heq, lexLe_antisymm as bs h1' h2']
    · simp [show ¬ a.toNat < b.toNat by omega, hab] at h1

theorem sortNames_perm (l : List String) : (sortNames l).Perm l :=
  List.perm_insertionSort strLeRel l

theorem sortNames_sorted (l : List String) : (sortNames l).Sorted strLeRel := by
  haveI : IsTotal String strLeRel := ⟨fun a b => lexLe_total a.data b.data⟩
  haveI : IsTrans String strLeRel := ⟨fun a b c h1 h2 => lexLe_trans a.data b.data c.data h1 h2⟩
  exact List.sorted_insertionSort strLeRel l

theorem sortNames_eq_of_perm {l₁ l₂ : List String} (h : l₁.Perm l₂) :
    sortNames l₁ = sortNames l₂ := by
  haveI : IsTotal String strLeRel := ⟨fun a b => lexLe_total a.data b.data⟩
  haveI : IsTrans String strLeRel := ⟨fun a b c h1 h2 => lexLe_trans a.data b.data c.data h1 h2⟩
  haveI : IsAntisymm String strLeRel := ⟨fun a b h1 h2 => by
    have h := lexLe_antisymm a.data b.data h1 h2
    cases a; cases b; simp only at h; rw [h]⟩
  exact List.eq_of_perm_of_sorted ((sortNames_perm l₁).trans (h.trans (sortNames_perm l₂).symm))
    (sortNames_sorted l₁) (sortNames_sorted l₂)

/-! ## Claims -/

/-- **C10.** For every user profile, `hasAnyPermission` with the empty
list returns `false`, `hasAllPermissions` with the empty list returns
`true` (vacuous truth), and `hasPermission` returns `false` rather than
failing when the user has no role or no permissions array. -/
theorem C10_empty_list_and_missing_role (u : UserProfile) (p : String) :
    PermissionService.hasAnyPermission u [] = false ∧
    PermissionService.hasAllPermissions u [] = true ∧
    (u.role = none → PermissionService.hasPermission u p = false) ∧
    (∀ r, u.role = some r → r.permissions = none →
      PermissionService.hasPermission u p = false) := by
  refine ⟨rfl, rfl, ?_, ?_⟩
  · intro h
    simp [PermissionService.hasPermission, h]
  · intro r h hp
    simp [PermissionService.hasPermission, h, hp]

/-- Witness for C10 at a concrete role-less profile. -/
theorem C10_witness :
    PermissionService.hasAnyPermission uNoRole [] = false ∧
    PermissionService.hasAllPermissions uNoRole [] = true ∧
    PermissionService.hasPermission uNoRole "project.create" = false := by
  have h := C10_empty_list_and_missing_role uNoRole "project.create"
  exact ⟨h.1, h.2.1, h.2.2.1 rfl⟩

/-- **C8 (counterexample).** The role-name shortcuts diverge from the
permission set: a principal whose role is named `admin` (resp.
`super_admin`) passes `isAdmin` (resp. `isSuperAdmin`) with an empty
permission set, and a principal holding a system-management grant under
the role name `editor` fails `isAdmin`. -/
theorem C8_counterexample :
    PermissionService.isAdmin adminNoPerms = true ∧
    PermissionService.getUserPermissions adminNoPerms = [] ∧
    PermissionService.hasPermission adminNoPerms "system.manage_users" = false ∧
    PermissionService.isSuperAdmin superNoPerms = true ∧
    PermissionService.getUserPermissions superNoPerms = [] ∧
    PermissionService.isAdmin editorWithGrant = false ∧
    PermissionService.hasPermission editorWithGrant "system.manage_users" = true := by
  decide

/-- **C8 (amended).** `isAdmin` / `isSuperAdmin` (and the corresponding
middleware) decide purely by the role-name string: they hold exactly when
the role is named `super_admin`/`admin` (resp. `super_admin`), and they
are invariant under every change of the permission set. -/
theorem C8_name_shortcut_characterization (u : UserProfile) :
    (PermissionService.isAdmin u = true ↔
      ∃ r, u.role = some r ∧ (r.name = "super_admin" ∨ r.name = "admin")) ∧
    (PermissionService.isSuperAdmin u = true ↔
      ∃ r, u.role = some r ∧ r.name = "super_admin") ∧
    (∀ ps, PermissionService.isAdmin (withPermissions u ps) =
      PermissionService.isAdmin u) ∧
    (∀ ps, PermissionService.isSuperAdmin (withPermissions u ps) =
      PermissionService.isSuperAdmin u) ∧
    (requireAdmin (some u) = .allow ↔ PermissionService.isAdmin u = true) ∧
    (requireSuperAdmin (some u) = .allow ↔ PermissionService.isSuperAdmin u = true) := by
  refine ⟨?_, ?_, ?_, ?_, ?_, ?_⟩
  · cases hr : u.role with
    | none => simp [PermissionService.isAdmin, hr]
    | some r => simp [PermissionService.isAdmin, hr]
  · cases hr : u.role with
    | none => simp [PermissionService.isSuperAdmin, hr]
    | some r => simp [PermissionService.isSuperAdmin, hr]
  · intro ps
    cases hr : u.role with
    | none => simp [PermissionService.isAdmin, withPermissions, hr]
    | some r => simp [PermissionService.isAdmin, withPermissions, hr]
  · intro ps
    cases hr : u.role with
    | none => simp [PermissionService.isSuperAdmin, withPermissions, hr]
    | some r => simp [PermissionService.isSuperAdmin, withPermissions, hr]
  · cases h : PermissionService.isAdmin u <;> simp [requireAdmin, h]
  · cases h : PermissionService.isSuperAdmin u <;> simp [requireSuperAdmin, h]

/-- Witness for C8 at the concrete `admin`-named profile with an empty
permission set. -/
theorem C8_witness :
    PermissionService.isAdmin (withPermissions adminNoPerms (some [])) =
      PermissionService.isAdmin adminNoPerms ∧
    (requireAdmin (some adminNoPerms) = .allow ↔
      PermissionService.isAdmin adminNoPerms = true) := by
  have h := C8_name_shortcut_characterization adminNoPerms
  exact ⟨h.2.2.1 (some []), h.2.2.2.2.1⟩

/-- **C2 (counterexample).** The non-active rejection of `/login` is the
fixed reply `403 'Account is inactive'`: a suspended and a pending
account, both probed with their correct passwords, produce identical
observable replies, so the reply does not carry the current status. -/
theorem C2_counterexample :
    login mkVerify dbStatusUsers "s@x.com" "pw1" = .accountNotActive ∧
    login mkVerify dbStatusUsers "p@x.com" "pw2" = .accountNotActive ∧
    (getUserByEmail dbStatusUsers "s@x.com").map UserRow.accountStatus =
      some .suspended ∧
    (getUserByEmail dbStatusUsers "p@x.com").map UserRow.accountStatus =
      some .pending ∧
    loginResponse (login mkVerify dbStatusUsers "s@x.com" "pw1") =
      loginResponse (login mkVerify dbStatusUsers "p@x.com" "pw2") := by
  decide

/-- **C2 (amended).** `login` returns `invalidCredentials` both for an
unknown email and for a known user whose password does not verify,
regardless of the account's status; the non-active rejection occurs
exactly when the password verifies and the status is not `active` — so
the status is never disclosed before successful password verification,
and all three failure causes share one external signal. -/
theorem C2_login_ordering (verify : String → String → Bool) (db : DB)
    (email password : String) (he : email ≠ "") (hp : password ≠ "") :
    (getUserByEmail db email = none →
      login verify db email password = .invalidCredentials) ∧
    (∀ u, getUserByEmail db email = some u → verify password u.passwordHash = false →
      login verify db email password = .invalidCredentials) ∧
    (login verify db email password = .accountNotActive ↔
      ∃ u, getUserByEmail db email = some u ∧ verify password u.passwordHash = true ∧
        u.accountStatus ≠ .active) := by
  have he' : (email == "") = false := by simpa using he
  have hp' : (password == "") = false := by simpa using hp
  refine ⟨?_, ?_, ?_⟩
  · intro h
    simp [login, he', hp', h]
  · intro u h hv
    simp [login, he', hp', h, hv]
  · cases hu : getUserByEmail db email with
    | none => simp [login, he', hp', hu]
    | some u =>
      cases hv : verify password u.passwordHash with
      | false => simp [login, he', hp', hu, hv]
      | true =>
        cases hs : u.accountStatus == AccountStatus.active with
        | false =>
          simp only [login, he', hp', hu, hv, Bool.false_eq_true, if_false]
          simp only [bne, hs]
          simp only [Bool.not_false, if_true]
          constructor
          · intro _
            exact ⟨u, rfl, hv, by simpa using hs⟩
          · intro _
            rfl
        | true =>
          have hs' : u.accountStatus = AccountStatus.active := by simpa using hs
          simp only [login, he', hp', hu, hv, Bool.false_eq_true, if_false]
          simp only [bne, hs]
          simp only [Bool.not_true, if_false]
          constructor
          · intro h
            cases h
          · rintro ⟨v, hv', _, hst⟩
            cases hv'
            exact absurd hs' hst

/-- Witness for C2: an unknown email and a wrong password on the
suspended account both yield `invalidCredentials`. -/
theorem C2_witness :
    login mkVerify dbStatusUsers "ghost@x.com" "zzz" = .invalidCredentials ∧
    login mkVerify dbStatusUsers "s@x.com" "wrong" = .invalidCredentials := by
  have h1 := C2_login_ordering mkVerify dbStatusUsers "ghost@x.com" "zzz"
    (by decide) (by decide)
  have h2 := C2_login_ordering mkVerify dbStatusUsers "s@x.com" "wrong"
    (by decide) (by decide)
  refine ⟨h1.1 (by decide), h2.2.1 (mkUser "u-s" "s@x.com" (mkHash "pw1") .suspended)
    (by decide) (by decide)⟩

/-- Membership is invariant under the `ORDER BY` model. -/
theorem mem_sortNames {a : String} {l : List String} : a ∈ sortNames l ↔ a ∈ l :=
  (sortNames_perm l).mem_iff

/-- The `requirePermission` middleware passes exactly when
`PermissionService.hasPermission` holds. -/
theorem requirePermission_allow_iff (p : String) (prof : UserProfile) :
    requirePermission p (some prof) = .allow ↔
      PermissionService.hasPermission prof p = true := by
  cases h : PermissionService.hasPermission prof p <;> simp [requirePermission, h]

/-- **C1.** For every user row, the authorization decision on the
resolved principal allows a permission `p` iff `p` belongs to the
flattened permission set resolved for the user's role
(`resolvePermissions`), and a user without a role is denied every
permission. -/
theorem C1_authorize_iff_resolved (db : DB) (u : UserRow) (p : String) :
    (∀ rid, u.roleId = some rid →
      (requirePermission p (some (principalOf db u)) = .allow ↔
        p ∈ resolvePermissions db rid)) ∧
    (u.roleId = none →
      requirePermission p (some (principalOf db u)) =
        .reject 403 "Insufficient permissions" ∧
      PermissionService.hasPermission (principalOf db u) p = false) := by
  constructor
  · intro rid hrid
    rw [requirePermission_allow_iff]
    have hperm : PermissionService.hasPermission (principalOf db u) p =
        (userRoleJoinNames db rid).contains p := by
      simp [principalOf, principalRole, hrid, PermissionService.hasPermission]
    rw [hperm]
    cases hfind : db.roles.find? (fun r => r.id == rid) with
    | none => simp [userRoleJoinNames, resolvePermissions, getRoleById, hfind]
    | some r =>
      simp only [userRoleJoinNames, resolvePermissions, getRoleById, hfind,
        Option.map_some']
      rw [List.elem_iff, mem_sortNames]
  · intro hrid
    have hrole : (principalOf db u).role = none := by
      simp [principalOf, principalRole, hrid]
    exact ⟨by simp [requirePermission, PermissionService.hasPermission, hrole],
      by simp [PermissionService.hasPermission, hrole]⟩

/-- Witness for C1: the editor-role user is allowed `drilling.read`,
which is exactly the resolved set of the `editor` role; the role-less
user is denied. -/
theorem C1_witness :
    requirePermission "drilling.read"
      (some (principalOf dbPrincipal
        { mkUser "u-e" "e@x.com" (mkHash "pw") .active with roleId := some "r-e" })) =
      .allow ∧
    PermissionService.hasPermission
      (principalOf dbPrincipal (mkUser "u-n" "n@x.com" (mkHash "pw") .active))
      "drilling.read" = false := by
  have h1 := C1_authorize_iff_resolved dbPrincipal
    { mkUser "u-e" "e@x.com" (mkHash "pw") .active with roleId := some "r-e" }
    "drilling.read"
  have h2 := C1_authorize_iff_resolved dbPrincipal
    (mkUser "u-n" "n@x.com" (mkHash "pw") .active) "drilling.read"
  exact ⟨(h1.1 "r-e" rfl).mpr (by decide), (h2.2 rfl).2⟩

/-- **C3.** Activation is exactly-once: with a stored, unexpired
invitation token `T` (held by a unique user) and a new password of at
least 8 characters, the first `activate` call succeeds, flips the status
to `active`, replaces the password hash, and clears the token and expiry;
a second call with the same `T` fails with the invalid-token error and
leaves the store unchanged. -/
theorem C3_activation_exactly_once (hash : String → String) (db : DB) (u : UserRow)
    (T pw pw₂ : String) (now now₂ e : Int)
    (hT : T ≠ "")
    (hfind : getUserByInvitationToken db T = some u)
    (huniq : ∀ v ∈ db.users, v.invitationToken = some T → v.id = u.id)
    (hexp : u.invitationExpires = some e) (hfuture : now < e)
    (hlen : 8 ≤ pw.length) (hlen₂ : 8 ≤ pw₂.length) (hpw₂ : pw₂ ≠ "") :
    ∃ db₁,
      activate hash db T pw now = (.success, db₁) ∧
      (∀ w ∈ db₁.users, w.id = u.id →
        w.accountStatus = .active ∧ w.passwordHash = hash pw ∧
        w.invitationToken = none ∧ w.invitationExpires = none) ∧
      getUserByInvitationToken db₁ T = none ∧
      activate hash db₁ T pw₂ now₂ = (.invalidToken, db₁) := by
  have hT' : (T == "") = false := by simpa using hT
  have hpw : pw ≠ "" := by
    intro h
    rw [h] at hlen
    have : ("" : String).length = 0 := rfl
    omega
  have hpw' : (pw == "") = false := by simpa using hpw
  have hpw₂' : (pw₂ == "") = false := by simpa using hpw₂
  have hlt : ¬ pw.length < 8 := by omega
  have hlt₂ : ¬ pw₂.length < 8 := by omega
  have hng : ¬ now > e := by omega
  refine ⟨updateUserRow db u.id (fun v =>
    { v with passwordHash := hash pw, accountStatus := AccountStatus.active,
             invitationToken := none, invitationExpires := none }), ?_, ?_, ?_, ?_⟩
  · simp [activate, hT', hpw', hlt, hfind, hexp, hng]
  · intro w hw hid
    simp only [updateUserRow, List.mem_map] at hw
    obtain ⟨v, hv, rfl⟩ := hw
    by_cases h : (v.id == u.id) = true
    · simp [h]
    · rw [if_neg] at hid ⊢
      · exact absurd (beq_iff_eq.mpr hid) h
      · simpa using h
      · simpa using h
  · rw [getUserByInvitationToken]
    apply List.find?_eq_none.mpr
    intro w hw
    simp only [updateUserRow, List.mem_map] at hw
    obtain ⟨v, hv, rfl⟩ := hw
    by_cases h : (v.id == u.id) = true
    · simp [h]
    · rw [if_neg]
      · intro hc
        have : v.invitationToken = some T := by simpa using hc
        exact absurd (beq_iff_eq.mpr (huniq v hv this)) h
      · simpa using h
  · have hnone : getUserByInvitationToken
        (updateUserRow db u.id (fun v =>
          { v with passwordHash := hash pw, accountStatus := AccountStatus.active,
                   invitationToken := none, invitationExpires := none })) T = none := by
      rw [getUserByInvitationToken]
      apply List.find?_eq_none.mpr
      intro w hw
      simp only [updateUserRow, List.mem_map] at hw
      obtain ⟨v, hv, rfl⟩ := hw
      by_cases h : (v.id == u.id) = true
      · simp [h]
      · rw [if_neg]
        · intro hc
          have : v.invitationToken = some T := by simpa using hc
          exact absurd (beq_iff_eq.mpr (huniq v hv this)) h
        · simpa using h
    simp [activate, hT', hpw₂', hlt₂, hnone]

/-- Witness for C3 at the concrete invited-user store. -/
theorem C3_witness :
    ∃ db₁,
      activate mkHash dbInvited "tok-1" "newpass123" 50 = (.success, db₁) ∧
      (∀ w ∈ db₁.users, w.id = "u-i" →
        w.accountStatus = .active ∧ w.passwordHash = mkHash "newpass123" ∧
        w.invitationToken = none ∧ w.invitationExpires = none) ∧
      getUserByInvitationToken db₁ "tok-1" = none ∧
      activate mkHash db₁ "tok-1" "otherpass1" 60 = (.invalidToken, db₁) := by
  exact C3_activation_exactly_once mkHash dbInvited
    { mkUser "u-i" "i@x.com" (mkHash "old") .inactive with
      invitationToken := some "tok-1", invitationExpires := some 100 }
    "tok-1" "newpass123" "otherpass1" 50 60 100
    (by decide) (by decide) (by decide) (by decide) (by decide)
    (by decide) (by decide) (by decide)

/-- **C4 (counterexample).** At `now == expiresAt` the two sub-flows
disagree: the activation flow still accepts its invitation token (its
guard is `now > expiresAt`), but the password-reset lookup
(`"resetPasswordExpires" > NOW()`) no longer returns the user, so the
reset token is rejected at the boundary — the boundary is not inclusive
for both sub-flows. -/
theorem C4_counterexample :
    (activate mkHash dbBoundary "itok" "newpass123" 100).1 = .success ∧
    (∃ v ∈ dbBoundary.users,
      v.resetPasswordToken = some "rtok" ∧ v.resetPasswordExpires = some 100) ∧
    getUserByPasswordResetToken dbBoundary "rtok" 100 = none := by
  decide

/-- **C4 (amended).** The boundary is inclusive for `activate` (a call at
`now == expiresAt` succeeds and only `now > expiresAt` is rejected as
expired), but exclusive for the password-reset lookup: a user is returned
only when `expiresAt > now`, so a reset call at `now == expiresAt` finds
no user. -/
theorem C4_expiry_boundary (hash : String → String) (db : DB) (token pw : String)
    (now : Int) (u : UserRow)
    (hfind : getUserByInvitationToken db token = some u)
    (hexp : u.invitationExpires = some now)
    (ht : token ≠ "") (hlen : 8 ≤ pw.length) :
    (activate hash db token pw now).1 = .success ∧
    (activate hash db token pw (now + 1)).1 = .expiredToken ∧
    (∀ tok v, getUserByPasswordResetToken db tok now = some v →
      ∀ e, v.resetPasswordExpires = some e → now < e) := by
  have ht' : (token == "") = false := by simpa using ht
  have hpw : pw ≠ "" := by
    intro h
    rw [h] at hlen
    have : ("" : String).length = 0 := rfl
    omega
  have hpw' : (pw == "") = false := by simpa using hpw
  have hlt : ¬ pw.length < 8 := by omega
  refine ⟨?_, ?_, ?_⟩
  · simp [activate, ht', hpw', hlt, hfind, hexp]
  · simp [activate, ht', hpw', hlt, hfind, hexp]
  · intro tok v hv e he
    have hp := List.find?_some hv
    rw [he] at hp
    simp only [Bool.and_eq_true, beq_iff_eq, decide_eq_true_eq] at hp
    omega

/-- Witness for C4 at the concrete boundary store. -/
theorem C4_witness :
    (activate mkHash dbBoundary "itok" "newpass123" 100).1 = .success ∧
    (activate mkHash dbBoundary "itok" "newpass123" 101).1 = .expiredToken := by
  have h := C4_expiry_boundary mkHash dbBoundary "itok" "newpass123" 100
    { mkUser "u-i" "i@x.com" (mkHash "old") .inactive with
      invitationToken := some "itok", invitationExpires := some 100 }
    (by decide) (by decide) (by decide) (by decide)
  exact ⟨h.1, h.2.1⟩

/-- **C5.** A pending principal with a valid session token is rejected by
the `authenticate` pre-handler of `PUT /profile/password` with
`403 'Account is inactive'` — before any account-status gate runs — even
though the `checkAccountActive` gate itself would allow that URL through
its allow-list.  The self-service escape hatch is therefore unreachable. -/
theorem C5_pending_user_blocked_before_allowlist :
    profilePasswordPreHandler (some pendingProfile) =
      .reject 403 "Account is inactive" ∧
    urlIncludes "/api/profile/password" "/profile/password" = true ∧
    checkAccountActive (some pendingProfile) "/api/profile/password" = .allow ∧
    authenticate (some pendingProfile) ≠ .allow := by
  decide

/-- **C9.** In the storing variant (`part_008`) of `/password-reset` the
replies for a known and an unknown email are identical and nothing is
stored for the unknown one; in the dev variant (`part_009`) the reply for
a known email additionally carries the freshly signed reset token, so the
two replies are distinguishable. -/
theorem C9_reset_ack_and_token_leak :
    (passwordResetStoring mkSign dbResetReq "known@x.com" 0).1 =
      (passwordResetStoring mkSign dbResetReq "ghost@x.com" 0).1 ∧
    (passwordResetStoring mkSign dbResetReq "ghost@x.com" 0).2 = dbResetReq ∧
    (passwordResetDev mkSign dbResetReq "known@x.com").1.message =
      (passwordResetDev mkSign dbResetReq "ghost@x.com").1.message ∧
    (passwordResetDev mkSign dbResetReq "known@x.com").1.resetToken =
      some "jwt$u-e" ∧
    (passwordResetDev mkSign dbResetReq "ghost@x.com").1.resetToken = none ∧
    (passwordResetDev mkSign dbResetReq "known@x.com").1 ≠
      (passwordResetDev mkSign dbResetReq "ghost@x.com").1 := by
  decide

/-- **C7.** For any active caller holding the role-management permission
(whatever its string value), deleting a role whose name is in the fixed
system-role list always fails with the protected-role rejection and
leaves the store unchanged; a role not in that list is deleted and its
row disappears. -/
theorem C7_system_role_protected (manageRoles : String) (db : DB)
    (caller : UserProfile) (roleId : String) (role : RoleWithPermissions)
    (hactive : caller.accountStatus = .active)
    (hperm : PermissionService.hasPermission caller manageRoles = true)
    (hrole : getRoleById db roleId = some role) :
    (role.name ∈ systemRoles →
      deleteRoleEndpoint manageRoles db (some caller) roleId = (.protectedRole, db)) ∧
    (role.name ∉ systemRoles →
      deleteRoleEndpoint manageRoles db (some caller) roleId =
        (.deleted, deleteRole db roleId) ∧
      (deleteRole db roleId).roles.find? (fun r => r.id == roleId) = none) := by
  have hfound : (db.roles.find? (fun r => r.id == roleId)).isSome := by
    rw [getRoleById] at hrole
    cases h : db.roles.find? (fun r => r.id == roleId) with
    | none => rw [h] at hrole; cases hrole
    | some r => rfl
  have hgone : (deleteRole db roleId).roles.find? (fun r => r.id == roleId) = none := by
    apply List.find?_eq_none.mpr
    intro r hr
    simp only [deleteRole, List.mem_filter] at hr
    intro hc
    have := hr.2
    rw [(beq_iff_eq).mp hc] at this
    simp at this
  have hex : ∃ x ∈ db.roles, x.id = roleId := by
    obtain ⟨r, hr⟩ := Option.isSome_iff_exists.mp hfound
    exact ⟨r, List.mem_of_find?_eq_some hr, by simpa using List.find?_some hr⟩
  constructor
  · intro hsys
    simp [deleteRoleEndpoint, hactive, hperm, hrole, hsys]
  · intro hsys
    refine ⟨?_, hgone⟩
    simp [deleteRoleEndpoint, hactive, hperm, hrole, hsys, hex]

/-- Witness for C7: the super-admin caller cannot delete `super_admin`
but deletes the custom role. -/
theorem C7_witness :
    deleteRoleEndpoint "role.manage" dbRolesW (some superAdminCaller) "r-sa" =
      (.protectedRole, dbRolesW) ∧
    (deleteRoleEndpoint "role.manage" dbRolesW (some superAdminCaller) "r-c").1 =
      .deleted := by
  have h1 := C7_system_role_protected "role.manage" dbRolesW superAdminCaller "r-sa"
    { id := "r-sa", name := "super_admin", permissions := [] }
    (by decide) (by decide) (by decide)
  have h2 := C7_system_role_protected "role.manage" dbRolesW superAdminCaller "r-c"
    { id := "r-c", name := "custom", permissions := [] }
    (by decide) (by decide) (by decide)
  refine ⟨h1.1 (by decide), ?_⟩
  rw [(h2.2 (by decide)).1]

/-- Boolean `contains` is false exactly on non-members. -/
theorem contains_eq_false_iff {α : Type} [BEq α] [LawfulBEq α] (l : List α) (a : α) :
    l.contains a = false ↔ a ∉ l := by
  rw [Bool.eq_false_iff]
  exact not_congr List.elem_iff

/-- A single junction insert succeeds and appends when the pair is fresh
and both foreign keys resolve. -/
theorem insertRolePermission_some (d : DB) (roleId pid : String)
    (hfresh : d.rolePermissions.contains (roleId, pid) = false)
    (hrole : (d.roles.find? (fun r => r.id == roleId)).isSome)
    (hperm : (d.permissions.find? (fun p => p.id == pid)).isSome) :
    insertRolePermission d roleId pid =
      some { d with rolePermissions := d.rolePermissions ++ [(roleId, pid)] } := by
  obtain ⟨r, hr⟩ := Option.isSome_iff_exists.mp hrole
  obtain ⟨q, hq⟩ := Option.isSome_iff_exists.mp hperm
  simp [insertRolePermission, hr, hq, (contains_eq_false_iff _ _).mp hfresh]

/-- The insert loop of the replacement transaction appends the whole pair
list when every pair is fresh, every permission id resolves, and the ids
are distinct. -/
theorem insertAll_spec (roleId : String) : ∀ (ids : List String) (d : DB),
    ids.Nodup →
    (∀ pid ∈ ids, d.rolePermissions.contains (roleId, pid) = false) →
    (∀ pid ∈ ids, (d.permissions.find? (fun p => p.id == pid)).isSome) →
    (d.roles.find? (fun r => r.id == roleId)).isSome →
    insertAllRolePermissions d roleId ids =
      some { d with rolePermissions :=
        d.rolePermissions ++ ids.map (fun pid => (roleId, pid)) }
  | [], d => by
    intro _ _ _ _
    simp [insertAllRolePermissions]
  | pid :: rest, d => by
    intro hnodup hfresh hperm hrole
    have hmem : pid ∈ pid :: rest := List.mem_cons_self pid rest
    rw [insertAllRolePermissions,
      insertRolePermission_some d roleId pid (hfresh pid hmem) hrole (hperm pid hmem)]
    have hpid_not : pid ∉ rest := (List.nodup_cons.mp hnodup).1
    have hrec := insertAll_spec roleId rest
      { d with rolePermissions := d.rolePermissions ++ [(roleId, pid)] }
      (List.nodup_cons.mp hnodup).2
      (by
        intro q hq
        rw [contains_eq_false_iff]
        intro hc
        rcases List.mem_append.mp hc with hc₁ | hc₂
        · exact absurd hc₁
            ((contains_eq_false_iff _ _).mp (hfresh q (List.mem_cons_of_mem pid hq)))
        · have hqp : q = pid := congrArg Prod.snd (List.mem_singleton.mp hc₂)
          exact hpid_not (hqp ▸ hq))
      (by
        intro q hq
        exact hperm q (List.mem_cons_of_mem pid hq))
      hrole
    dsimp only
    rw [hrec]
    simp [List.append_assoc]

/-- After clearing, no pair of the role is present. -/
theorem clear_fresh (db : DB) (roleId pid : String) :
    (clearRolePermissions db roleId).rolePermissions.contains (roleId, pid) = false := by
  rw [contains_eq_false_iff]
  intro hc
  simp only [clearRolePermissions, List.mem_filter] at hc
  simp at hc

/-- `setRolePermissions` with distinct, resolvable ids succeeds, and the
resulting junction table is the cleared table plus the new pairs. -/
theorem setRolePermissions_eq (db : DB) (roleId : String) (ids : List String)
    (hrole : (db.roles.find? (fun r => r.id == roleId)).isSome)
    (hids : ∀ pid ∈ ids, (db.permissions.find? (fun p => p.id == pid)).isSome)
    (hnodup : ids.Nodup) :
    setRolePermissions db roleId ids =
      some { db with rolePermissions :=
        db.rolePermissions.filter (fun rp => rp.1 != roleId) ++ ids.map (fun pid => (roleId, pid)) } := by
  rw [setRolePermissions]
  exact insertAll_spec roleId ids (clearRolePermissions db roleId) hnodup
    (fun pid _ => clear_fresh db roleId pid) hids hrole

/-- After a successful full replace, the resolved permission list of the
role is the sorted image of the written ids under catalog-name lookup. -/
theorem resolve_after_set (db : DB) (roleId : String) (ids : List String)
    (hrole : (db.roles.find? (fun r => r.id == roleId)).isSome) :
    resolvePermissions
      { db with rolePermissions :=
        db.rolePermissions.filter (fun rp => rp.1 != roleId) ++ ids.map (fun pid => (roleId, pid)) }
      roleId =
    sortNames (ids.filterMap (fun pid =>
      (db.permissions.find? (fun p => p.id == pid)).map PermissionRow.name)) := by
  obtain ⟨r, hr⟩ := Option.isSome_iff_exists.mp hrole
  have hrid : r.id = roleId := by simpa using List.find?_some hr
  have hfind : ({ db with rolePermissions :=
      db.rolePermissions.filter (fun rp => rp.1 != roleId) ++ ids.map (fun pid => (roleId, pid)) } : DB).roles.find?
      (fun r => r.id == roleId) = some r := hr
  rw [resolvePermissions, getRoleById, hfind]
  dsimp only [Option.map_some']
  have hnames_eq : rolePermissionNames
      { db with rolePermissions :=
        db.rolePermissions.filter (fun rp => rp.1 != roleId) ++ ids.map (fun pid => (roleId, pid)) }
      r.id =
      ids.filterMap (fun pid =>
        (db.permissions.find? (fun p => p.id == pid)).map PermissionRow.name) := by
    rw [rolePermissionNames]
    dsimp only
    rw [hrid, List.filter_append]
    have h1 : (db.rolePermissions.filter (fun rp => rp.1 != roleId)).filter
        (fun rp => rp.1 == roleId) = [] := by
      rw [List.filter_eq_nil]
      intro a ha
      have := (List.mem_filter.mp ha).2
      simp only [bne_iff_ne] at this
      simp [this]
    have h2 : (ids.map (fun pid => (roleId, pid))).filter (fun rp => rp.1 == roleId) =
        ids.map (fun pid => (roleId, pid)) := by
      rw [List.filter_eq_self]
      intro a ha
      obtain ⟨pid, _, rfl⟩ := List.mem_map.mp ha
      simp
    rw [h1, h2, List.nil_append, List.filterMap_map]
    rfl
  rw [hnames_eq]

/-- **C6 (amended).** For a role present in the store and a
duplicate-free list of catalog permission ids, `setRolePermissions`
succeeds; afterwards the resolved permission list of the role contains
exactly the names of the written ids (prior assignments are fully
replaced), has no duplicates, and is identical for every insertion order.
A list containing a duplicate violates the junction table's UNIQUE
constraint, so the transaction rolls back and the prior assignments
survive (counterexample theorem). -/
theorem C6_full_replace (db : DB) (roleId : String) (ids : List String)
    (hrole : (db.roles.find? (fun r => r.id == roleId)).isSome)
    (hids : ∀ pid ∈ ids, (db.permissions.find? (fun p => p.id == pid)).isSome)
    (hnodup : ids.Nodup)
    (hnames : (db.permissions.map PermissionRow.name).Nodup) :
    ∃ db', setRolePermissions db roleId ids = some db' ∧
      (resolvePermissions db' roleId).Nodup ∧
      (∀ nm, nm ∈ resolvePermissions db' roleId ↔
        ∃ pid ∈ ids, ∃ perm, db.permissions.find? (fun p => p.id == pid) = some perm ∧
          perm.name = nm) ∧
      (∀ ids₂ db₂, ids.Perm ids₂ → setRolePermissions db roleId ids₂ = some db₂ →
        resolvePermissions db₂ roleId = resolvePermissions db' roleId) := by
  have hset := setRolePermissions_eq db roleId ids hrole hids hnodup
  have hres := resolve_after_set db roleId ids hrole
  refine ⟨_, hset, ?_, ?_, ?_⟩
  · rw [hres]
    have hfm : (ids.filterMap (fun pid =>
        (db.permissions.find? (fun p => p.id == pid)).map PermissionRow.name)).Nodup := by
      refine List.Nodup.filterMap ?_ hnodup
      intro a a' b hb hb'
      simp only [Option.mem_def, Option.map_eq_some'] at hb hb'
      obtain ⟨pa, hpa, hna⟩ := hb
      obtain ⟨pa', hpa', hna'⟩ := hb'
      have heq : pa = pa' :=
        List.inj_on_of_nodup_map hnames (List.mem_of_find?_eq_some hpa)
          (List.mem_of_find?_eq_some hpa') (by rw [hna, hna'])
      have ha : pa.id = a := by simpa using List.find?_some hpa
      have ha' : pa'.id = a' := by simpa using List.find?_some hpa'
      rw [← ha, ← ha', heq]
    exact ((sortNames_perm _).nodup_iff).mpr hfm
  · intro nm
    rw [hres, mem_sortNames, List.mem_filterMap]
    constructor
    · rintro ⟨a, ha, hfa⟩
      obtain ⟨perm, hp, hn⟩ := Option.map_eq_some'.mp hfa
      exact ⟨a, ha, perm, hp, hn⟩
    · rintro ⟨pid, hpid, perm, hp, hn⟩
      exact ⟨pid, hpid, by rw [hp, Option.map_some', hn]⟩
  · intro ids₂ db₂ hperm12 hset₂
    have hnodup₂ : ids₂.Nodup := (hperm12.nodup_iff).mp hnodup
    have hids₂ : ∀ pid ∈ ids₂, (db.permissions.find? (fun p => p.id == pid)).isSome :=
      fun pid hp => hids pid (hperm12.mem_iff.mpr hp)
    rw [setRolePermissions_eq db roleId ids₂ hrole hids₂ hnodup₂] at hset₂
    have hdb₂ := Option.some.inj hset₂
    rw [← hdb₂, resolve_after_set db roleId ids₂ hrole, hres]
    exact sortNames_eq_of_perm ((hperm12.filterMap _).symm)

/-- Witness for C6 at the concrete catalog store. -/
theorem C6_witness :
    ∃ db', setRolePermissions dbRoleCx "r1" ["p2", "p1"] = some db' ∧
      (resolvePermissions db' "r1").Nodup ∧ "perm.two" ∈ resolvePermissions db' "r1" := by
  obtain ⟨db', h1, h2, h3, _⟩ := C6_full_replace dbRoleCx "r1" ["p2", "p1"]
    (by decide) (by decide) (by decide) (by decide)
  exact ⟨db', h1, h2, (h3 "perm.two").mpr
    ⟨"p2", by decide, { id := "p2", name := "perm.two" }, by decide, rfl⟩⟩

/-- **C6 (counterexample).** A permission list containing a duplicate
makes the replacement transaction fail (UNIQUE violation, rollback), so
the prior assignment of the role survives instead of being replaced by
the passed set. -/
theorem C6_counterexample :
    setRolePermissions dbRoleCx "r1" ["p2", "p2"] = none ∧
    resolvePermissions dbRoleCx "r1" = ["perm.one"] := by
  decide

end PostgresDB
